import Mathlib

/-!
# Verification of the avpipe session and I/O bridging subsystem

Shallow embedding of the handle registry, the I/O callback dispatcher,
the live-capture reader, the backpressured stream adapter and the
output naming convention of the avpipe repository, together with proofs
and refutations of the specification's claims about them.

Sources embedded:
* `avpipe.c` — C-side dispatcher wrappers (`in_read_packet`,
  `out_write_packet`, `in_seek`), the session table
  (`tx_table_put` / `tx_table_find` / `tx_table_free` / `tx_table_cancel`)
  and the session lifecycle (`tx_init`, `tx_run`, `tx_cancel`).
* the cgo dispatcher (`NewIOHandler`, `AVPipeReadInput`,
  `AVPipeWriteOutput`, `AVPipeCloseInput`, `AVPipeOpenOutput`, …) in the
  Go package, in both its newer form (global table `gHandlers`, counters
  `gHandleNum` / `gFd`) and the older `avpipe_handler.go`
  (slot id formula `(seg_index-1)*2 + stream_index`).
* `live/ts_recorder.go` — `readUdp`, the UDP live-capture loop.
* the C test tool — `udp_thread_func` (UDP reader thread) and
  `in_read_packet` (UDP branch: the backpressured stream adapter with
  partial-read carry-over), and `out_opener` (segment naming).
-/

namespace Avpipe

/-! ## C integer conversions

`tx_init` stores the `int32_t` result of `tx_table_put` into a
`uint32_t` variable and later returns it as `int32_t`.  We model the two
implementation-defined conversions the way gcc/clang (two's complement
wraparound) perform them. -/

/-- C conversion `int32_t → uint32_t` (reduction mod 2^32). -/
def u32ofI32 (x : Int) : Nat := (x % 4294967296).toNat

/-- C conversion `uint32_t → int32_t` (two's-complement wraparound,
as gcc/clang implement it). -/
def i32ofU32 (n : Nat) : Int :=
  if n % 4294967296 < 2147483648 then (n % 4294967296 : Int)
  else (n % 4294967296 : Int) - 4294967296

/-! ## The Go dispatcher: input read and output write

The Go `InputHandler.Read` contract (documented on the interface in the
Go package) is: `(n, nil)` with `n > 0` delivers bytes, `(0, nil)`
signals end-of-stream, and a non-nil error signals failure.  A backend
call outcome is modelled as the returned count plus an error flag. -/

/-- Function `AVPipeReadInput(fd, buf, sz)` from the Go dispatcher:
returns -1 when the handle is absent from `gHandlers`, -1 when the
backend reader returned a non-nil error, and otherwise the backend's
count `n` (the `C.memcpy` of the bytes is not value-relevant). -/
def avPipeReadInput (handlerPresent : Bool) (n : Int) (readErr : Bool) : Int :=
  if !handlerPresent then -1
  else if readErr then -1
  else n

/-- State of the C-side input context relevant to reads
(`ioctx_t.read_bytes` / `read_pos`). -/
structure InCtxCounters where
  read_bytes : Int
  read_pos : Int
  deriving Repr, DecidableEq

/-- Function `in_read_packet` from `avpipe.c`: calls `AVPipeReadInput`, adds a
positive count to the byte counters, and returns `r > 0 ? r : -1` —
any non-positive dispatcher count (including the end-of-stream 0) is
returned to the engine as -1.  (The periodic `in_stat` byte report does
not affect the returned value and is elided.) -/
def in_read_packet_c (c : InCtxCounters) (goRet : Int) : Int × InCtxCounters :=
  let c' := if goRet > 0 then
      { read_bytes := c.read_bytes + goRet, read_pos := c.read_pos + goRet }
    else c
  (if goRet > 0 then goRet else -1, c')

/-- Function `AVPipeWriteOutput(handler, fd, buf, sz)` from the Go dispatcher:
-1 when the session handle is absent; a Go runtime crash (modelled as
`none`) when the output-slot entry is nil; -1 when the backend
`Write` returned a non-nil error; otherwise the backend's count `n`. -/
def avPipeWriteOutput (handlerPresent slotPresent : Bool) (n : Int)
    (writeErr : Bool) : Option Int :=
  if !handlerPresent then some (-1)
  else if !slotPresent then none
  else if writeErr then some (-1)
  else some n

/-- State of the C-side output context relevant to writes
(`ioctx_t.written_bytes` / `write_pos`). -/
structure OutCtxCounters where
  written_bytes : Int
  write_pos : Int
  deriving Repr, DecidableEq

/-- Function `out_write_packet` from `avpipe.c`: calls `AVPipeWriteOutput`,
adds a non-negative count to the byte counters, and then returns
`buf_size` unconditionally — the dispatcher's error status is dropped
(`none` propagates the Go crash). -/
def out_write_packet_c (o : OutCtxCounters) (goRet : Option Int)
    (bufSize : Int) : Option (Int × OutCtxCounters) :=
  match goRet with
  | none => none
  | some bwritten =>
    let o' := if bwritten ≥ 0 then
        { written_bytes := o.written_bytes + bwritten,
          write_pos := o.write_pos + bwritten }
      else o
    some (bufSize, o')

end Avpipe

namespace Avpipe

/-- C1 helper: the value `out_write_packet` returns to the engine for a
write of `bufSize` bytes whose backend outcome is `(n, writeErr)`,
on a live handle and slot. -/
def engineWriteReturn (o : OutCtxCounters) (n : Int) (writeErr : Bool)
    (bufSize : Int) : Option Int :=
  (out_write_packet_c o (avPipeWriteOutput true true n writeErr) bufSize).map
    Prod.fst

/-- C2 helper: the value `in_read_packet` returns to the engine for a
read whose backend outcome is `(n, readErr)` on a live handle. -/
def engineReadReturn (c : InCtxCounters) (n : Int) (readErr : Bool) : Int :=
  (in_read_packet_c c (avPipeReadInput true n readErr)).fst

/-! ## The C session table (`tx_table` in `avpipe.c`)

`tx_table` is a fixed array of `MAX_TX = 128` pointers to
`txctx_entry_t`.  An entry records the 31-bit handle and mirrors the
`txctx->index` field that `tx_table_put` stores at insertion time.
The table is a list of optional entries; the mutex serialises the
operations, so they are modelled as sequential state transformers. -/

/-- The entry `txctx_entry_t` together with the `txctx->index` the put
operation recorded (the `done` field is unused by the claims). -/
structure TxEntry where
  handle : Int
  index : Nat
  deriving Repr, DecidableEq

/-- A session table: one optional entry per slot. -/
def TxTable := List (Option TxEntry)

instance : DecidableEq TxTable := by
  unfold TxTable
  infer_instance

/-- Constant `MAX_TX` from `avpipe.c`. -/
def MAX_TX : Nat := 128

/-- The initial (all-NULL) table of `MAX_TX` slots. -/
def tx_table_init : TxTable := List.replicate MAX_TX none

/-- The sign fix-up in `tx_table_put`:
`if (txe->handle < 0) txe->handle = (-1) * txe->handle;`. -/
def absHandle (r : Int) : Int := if r < 0 then -r else r

/-- Worker for `tx_table_put`: scan for the first NULL slot starting at
position `i`, install the entry `{handle := |r|, index := slot}` there
and return the handle; return -1 if the table is full.  There is no
check of the drawn handle against the live entries. -/
def tx_table_put_go (r : Int) : Nat → TxTable → Int × TxTable
  | _, [] => (-1, [])
  | i, none :: rest => (absHandle r, some ⟨absHandle r, i⟩ :: rest)
  | i, some e :: rest =>
    let p := tx_table_put_go r (i + 1) rest
    (p.1, some e :: p.2)

/-- Function `tx_table_put` from `avpipe.c`, parameterised by the `rand()` draw
`r`.  Returns the handle placed in the first free slot, or -1 when the
table is full. -/
def tx_table_put (r : Int) (t : TxTable) : Int × TxTable :=
  tx_table_put_go r 0 t

/-- Function `tx_table_find` from `avpipe.c`: the first entry whose handle
matches, or `none`. -/
def tx_table_find (h : Int) : TxTable → Option TxEntry
  | [] => none
  | none :: rest => tx_table_find h rest
  | some e :: rest => if e.handle = h then some e else tx_table_find h rest

/-- Worker for `tx_table_free`, carrying the slot position: the scan
stops at the first entry whose handle matches; the entry is removed only
when its recorded `index` equals its slot position (otherwise the C code
logs an error and leaves it in place), and in either case the function
returns at that point. -/
def tx_table_free_go (h : Int) : Nat → TxTable → TxTable
  | _, [] => []
  | i, none :: rest => none :: tx_table_free_go h (i + 1) rest
  | i, some e :: rest =>
    if e.handle = h then
      if e.index = i then none :: rest else some e :: rest
    else some e :: tx_table_free_go h (i + 1) rest

/-- Function `tx_table_free` from `avpipe.c` (the unregister operation). -/
def tx_table_free (h : Int) (t : TxTable) : TxTable :=
  tx_table_free_go h 0 t

/-- A register/unregister trace element for the session table:
`register r` performs `tx_table_put` with the `rand()` draw `r`,
`unregister h` performs `tx_table_free h`. -/
inductive RegOp where
  | register (r : Int)
  | unregister (h : Int)
  deriving Repr, DecidableEq

/-- Run a trace of register/unregister operations on a table. -/
def runRegOps (t : TxTable) : List RegOp → TxTable
  | [] => t
  | .register r :: rest => runRegOps (tx_table_put r t).2 rest
  | .unregister h :: rest => runRegOps (tx_table_free h t) rest

/-- The handles of the live entries of a table, in slot order. -/
def liveHandles (t : TxTable) : List Int :=
  t.filterMap (fun o => o.map TxEntry.handle)

/-- How many live entries of `t` carry handle `h`. -/
def countHandle (h : Int) (t : TxTable) : Nat :=
  (liveHandles t).count h

/-- A table is well-indexed from position `i` when every entry's
recorded `index` equals its slot position (counting from `i`);
`tx_table_put` records exactly the insertion slot and nothing moves
entries, so this is an invariant of the table. -/
def wfFromB : Nat → TxTable → Bool
  | _, [] => true
  | i, none :: rest => wfFromB (i + 1) rest
  | i, some e :: rest => decide (e.index = i) && wfFromB (i + 1) rest

/-- A table is well-indexed (from slot 0). -/
def wfTableB (t : TxTable) : Bool := wfFromB 0 t

/-- Whether `t` has at least one NULL slot. -/
def hasFree (t : TxTable) : Bool := t.any (·.isNone)

/-! ## The session lifecycle: `tx_init` with a full table

`tx_init` stores the `int32_t` result of `tx_table_put` in the
`uint32_t` local `handle` and tests `handle < 0`.  In C the comparison
promotes `0` to `uint32_t`, so the test compares two unsigned values
and is false for every value of `handle`; the table-full cleanup branch
(`goto end_tx_init`, which closes the input handler and frees all
resources) is unreachable from that test.  The returned value is the
`uint32_t` converted back to `int32_t`. -/

/-- Outcome of `tx_init` after the input open and `avpipe_init`
succeeded (the two earlier failure branches do run the cleanup). -/
structure TxInitResult where
  ret : Int
  table : TxTable
  /-- whether the `end_tx_init` cleanup (closer + fini + frees) ran. -/
  cleanedUp : Bool
  deriving DecidableEq

/-- The tail of `tx_init` from `avpipe.c`, starting at the
`tx_table_put` call, with the C unsigned comparison made explicit:
`handleU < 0` is a comparison of naturals and never holds. -/
def tx_init_put_phase (r : Int) (t : TxTable) : TxInitResult :=
  let p := tx_table_put r t
  let handleU : Nat := u32ofI32 p.1
  if handleU < 0 then
    { ret := -1, table := p.2, cleanedUp := true }
  else
    { ret := i32ofU32 handleU, table := p.2, cleanedUp := false }

/-- A table whose 128 slots are all live (handles `0..127`,
well-indexed), as after 128 successful `tx_init` calls. -/
def fullTable : TxTable :=
  (List.range MAX_TX).map (fun i => some { handle := Int.ofNat i, index := i })

/-! ## The Go handle registry (`gHandlers`, `gHandleNum`, `gFd`)

`NewIOHandler` increments the global counter `gHandleNum` under
`gMutex` and uses the new value as the session handle; a failing
`InputOpener.Open` still consumes the counter value.  `AVPipeCloseInput`
sets the map entry to nil and never touches the counter.  A nil map
entry and a missing key are indistinguishable to the dispatcher (both
read back as nil), so the registry is modelled by the counter plus the
list of live handles. -/

structure GoState where
  gHandleNum : Int
  live : List Int
  deriving Repr, DecidableEq

/-- The zero-initialised Go globals. -/
def goInit : GoState := { gHandleNum := 0, live := [] }

/-- Function `NewIOHandler` from the Go dispatcher: -1 when no openers are set
(before the counter is taken); otherwise the counter is incremented and
the new value becomes the handle; -1 (with the counter consumed) when
the backend `Open` fails; on success the handle is installed. -/
def newIOHandler (openersSet openOk : Bool) (s : GoState) : Int × GoState :=
  if !openersSet then (-1, s)
  else
    let fd := s.gHandleNum + 1
    if !openOk then (-1, { gHandleNum := fd, live := s.live })
    else (fd, { gHandleNum := fd, live := fd :: s.live })

/-- Function `AVPipeCloseInput` from the Go dispatcher: -1 when the handle is
absent; otherwise the entry is niled (the handle leaves the live set)
and the backend close's error decides the status. -/
def avPipeCloseInput (fd : Int) (closeErr : Bool) (s : GoState) :
    Int × GoState :=
  if s.live.contains fd then
    ((if closeErr then -1 else 0),
      { gHandleNum := s.gHandleNum, live := s.live.erase fd })
  else (-1, s)

/-- One dispatcher lifecycle call. -/
inductive GoOp where
  | newIn (openersSet openOk : Bool)
  | closeIn (fd : Int) (closeErr : Bool)
  deriving Repr, DecidableEq

/-- Run a trace of lifecycle calls. -/
def runGoOps (s : GoState) : List GoOp → GoState
  | [] => s
  | .newIn a b :: rest => runGoOps (newIOHandler a b s).2 rest
  | .closeIn fd e :: rest => runGoOps (avPipeCloseInput fd e s).2 rest

/-- The handles returned by the successful `NewIOHandler` calls of a
trace, in call order (a call is successful when openers are set and the
backend open succeeds). -/
def goSuccessHandles (s : GoState) : List GoOp → List Int
  | [] => []
  | .newIn a b :: rest =>
    if a && b then
      (newIOHandler a b s).1 :: goSuccessHandles (newIOHandler a b s).2 rest
    else goSuccessHandles (newIOHandler a b s).2 rest
  | .closeIn fd e :: rest => goSuccessHandles (avPipeCloseInput fd e s).2 rest

/-- Strict increase of consecutive elements, as a boolean check. -/
def strictIncrB : List Int → Bool
  | [] => true
  | [_] => true
  | a :: b :: rest => decide (a < b) && strictIncrB (b :: rest)

/-! ## Output slot allocation

Two generations of `AVPipeOpenOutput` live in the repository.  The
newer Go package allocates the slot id from the global counter `gFd`
under `gMutex`; the counter is consumed even when the stream type is
invalid or the backend `Open` fails.  The older `avpipe_handler.go`
computes the slot id with the deterministic formula
`fd := int(seg_index-1)*2 + int(stream_index)`. -/

/-- Function `AVPipeOpenOutput` (newer Go package), reduced to the slot-id
allocation: given the current `gFd`, returns the call's result and the
new `gFd`. -/
def avPipeOpenOutput4 (handlerPresent validType openOk : Bool)
    (gFd : Int) : Int × Int :=
  if !handlerPresent then (-1, gFd)
  else
    let fd := gFd + 1
    if !validType then (-1, fd)
    else if !openOk then (-1, fd)
    else (fd, fd)

/-- One `AVPipeOpenOutput` call's circumstances. -/
structure OpenCall where
  handlerPresent : Bool
  validType : Bool
  openOk : Bool
  deriving Repr, DecidableEq

/-- The slot ids returned by the successful opens of a call sequence,
starting from counter value `gFd`. -/
def openSuccessFds (gFd : Int) : List OpenCall → List Int
  | [] => []
  | c :: rest =>
    let p := avPipeOpenOutput4 c.handlerPresent c.validType c.openOk gFd
    if c.handlerPresent && c.validType && c.openOk then
      p.1 :: openSuccessFds p.2 rest
    else openSuccessFds p.2 rest

/-- The deterministic slot-id formula of the older `avpipe_handler.go`:
`fd := int(seg_index-1)*2 + int(stream_index)`. -/
def openOutputFdFormula (stream_index seg_index : Int) : Int :=
  (seg_index - 1) * 2 + stream_index

/-! ## The live capture reader

`readUdp` from `live/ts_recorder.go` loops over socket reads with a
5-second deadline.  Each iteration yields a datagram, a deadline
timeout, or another socket error; the loop counts `bytesRead` and
forwards each datagram to the downstream writer.  A timeout with
`bytesRead == 0` is skipped (`continue`, waiting for stream start); a
timeout after data returns `avpipe.EAV_IO_TIMEOUT`; any other socket
error is returned as-is.  The deferred close of the writer runs exactly
when the function returns, so the downstream byte stream ends then.
The owning goroutine in `serveOneConnection` sends every non-nil
return value to `tsr.ErrChannel`.  (Writes to the `RWBuffer` are
modelled as succeeding; the write-failure early return is not exercised
by the claims.) -/

/-- One socket-read outcome observed by the reader loop. -/
inductive UdpEvent where
  | data (n : Nat)
  | timeout
  | sockErr
  deriving Repr, DecidableEq

/-- The non-nil error values `readUdp` can return. -/
inductive UdpErr where
  | eavIoTimeout
  | readFailed
  deriving Repr, DecidableEq

/-- State of a `readUdp` run over a finite prefix of socket events:
either the loop is still running (waiting for the next datagram), or
the function returned with the given error value (`none` = nil). -/
inductive RunOutcome where
  | running (bytesRead : Nat)
  | returned (e : Option UdpErr) (bytesRead : Nat)
  deriving Repr, DecidableEq

/-- The `readUdp` loop of `live/ts_recorder.go` over a finite event
prefix, carrying `bytesRead`. -/
def readUdpGo (bytesRead : Nat) : List UdpEvent → RunOutcome
  | [] => .running bytesRead
  | .data n :: rest => readUdpGo (bytesRead + n) rest
  | .timeout :: rest =>
    if bytesRead = 0 then readUdpGo bytesRead rest
    else .returned (some .eavIoTimeout) bytesRead
  | .sockErr :: _ => .returned (some .readFailed) bytesRead

/-- The deferred `w.Close()`/`conn.Close()` of `readUdp` has run
exactly when the function returned, i.e. exactly then does the
downstream byte stream reach end-of-stream. -/
def streamClosed : RunOutcome → Bool
  | .returned _ _ => true
  | .running _ => false

/-- What the owning goroutine (`serveOneConnection`) delivers to
`tsr.ErrChannel`: the return value when it is non-nil. -/
def errChannelMsg : RunOutcome → Option UdpErr
  | .returned (some e) _ => some e
  | _ => none

/-- Function `udp_thread_func` from the C test tool: the thread loops on
`readable_timeout`; a timeout (or socket error, `readable_timeout < 0`)
breaks the loop unconditionally — there is no check whether any data
has arrived — and otherwise one datagram is received and sent to the
UDP channel. -/
inductive ThreadState where
  | runningT (pkts : List Nat)
  | exitedT (pkts : List Nat)
  deriving Repr, DecidableEq

/-- The `udp_thread_func` loop over a finite event prefix, carrying the
datagram sizes enqueued so far. -/
def udpThreadGo (pkts : List Nat) : List UdpEvent → ThreadState
  | [] => .runningT pkts
  | .data n :: rest => udpThreadGo (pkts ++ [n]) rest
  | .timeout :: _ => .exitedT pkts
  | .sockErr :: _ => .exitedT pkts

/-! ## The backpressured stream adapter

The UDP branch of `in_read_packet` in the C test tool: the context
holds the partially consumed packet (`cur_packet`, `cur_pread`) and
draws the next packet from the UDP channel when none is pending.  A
receive on an empty channel is the `ETIMEDOUT` path and returns -1
without touching the state.  Bytes are modelled as naturals. -/

/-- Adapter state: the current packet with its read cursor
(`cur_packet` / `cur_pread`), and the channel contents in FIFO order. -/
structure AdapterState where
  cur : Option (List Nat × Nat)
  queue : List (List Nat)
  deriving Repr, DecidableEq

/-- Result of one `in_read_packet` call on the UDP branch. -/
structure AdapterRead where
  ret : Int
  out : List Nat
  st : AdapterState
  deriving Repr, DecidableEq

/-- The UDP branch of `in_read_packet` (C test tool).  With a pending
partially consumed packet: copy `min(buf_size, len - cur_pread)` bytes
from the cursor, advance it, and free the packet when exhausted.
Otherwise receive the next packet: on `ETIMEDOUT` (empty channel)
return -1; else copy `min(buf_size, len)` bytes and retain the packet
with cursor `r` when `r < len`.  (The `read_bytes`/`read_pos` counters
are elided; they do not affect the delivered bytes.) -/
def in_read_packet_udp (c : AdapterState) (bufSize : Nat) : AdapterRead :=
  match c.cur with
  | some (pkt, pread) =>
    let r := min bufSize (pkt.length - pread)
    let out := (pkt.drop pread).take r
    if pread + r = pkt.length then
      { ret := (r : Int), out := out, st := { cur := none, queue := c.queue } }
    else
      { ret := (r : Int), out := out,
        st := { cur := some (pkt, pread + r), queue := c.queue } }
  | none =>
    match c.queue with
    | [] => { ret := -1, out := [], st := c }
    | pkt :: rest =>
      let r := min bufSize pkt.length
      let out := pkt.take r
      if r < pkt.length then
        { ret := (r : Int), out := out,
          st := { cur := some (pkt, r), queue := rest } }
      else
        { ret := (r : Int), out := out, st := { cur := none, queue := rest } }

/-- The bytes not yet delivered by the adapter: the rest of the current
packet, then the queued packets in FIFO order. -/
def pendingBytes (c : AdapterState) : List Nat :=
  (match c.cur with
   | some (pkt, pread) => pkt.drop pread
   | none => []) ++ c.queue.flatten

/-- The concatenation of everything a sequence of reads delivers. -/
def drainOut (c : AdapterState) : List Nat → List Nat
  | [] => []
  | sz :: rest =>
    let s := in_read_packet_udp c sz
    s.out ++ drainOut s.st rest

/-- The adapter state after a sequence of reads. -/
def drainSt (c : AdapterState) : List Nat → AdapterState
  | [] => c
  | sz :: rest => drainSt (in_read_packet_udp c sz).st rest

/-- The number of bytes still unread in the packet the next read will
serve from (0 when the adapter is empty). -/
def headRemaining (c : AdapterState) : Nat :=
  match c.cur with
  | some (pkt, pread) => pkt.length - pread
  | none =>
    match c.queue with
    | [] => 0
    | pkt :: _ => pkt.length

/-! ## The output naming convention (`out_opener` of the C test tool)

`out_opener` builds the file path with `sprintf`.  The directory is
`./O/O<gfd>` where `gfd` numbers the opened inputs; segment cases
prepend a further `"./"`.  `%05d` zero-pads to a minimum width of five
characters (counting the minus sign of a negative value), and `%d`
prints the decimal value. -/

/-- The output kinds of the `avpipe_buftype_t` enum that `out_opener`
and `AVPipeOpenOutput` switch over. -/
inductive OutType where
  | manifest
  | master_m3u
  | video_init_stream
  | audio_init_stream
  | video_m3u
  | audio_m3u
  | aes_128_key
  | mp4_stream
  | fmp4_stream
  | video_segment
  | audio_segment
  | mp4_segment
  | fmp4_segment
  deriving Repr, DecidableEq

/-- C `sprintf` `%0<w>d`: decimal digits zero-padded on the left to a
minimum total width `w` (the minus sign counts toward the width). -/
def sprintf0d (w : Nat) (n : Int) : String :=
  if n < 0 then
    let digits := toString (-n)
    "-" ++ String.mk (List.replicate (w - 1 - digits.length) '0') ++ digits
  else
    let digits := toString n
    String.mk (List.replicate (w - digits.length) '0') ++ digits

/-- C `sprintf` `%d` of an `int`. -/
def sprintfd (n : Int) : String := toString n

/-- The path `out_opener` opens, by output kind (`outctx->type`),
stream index, segment index and requested url; `gfd` is the per-input
directory number.  Mirrors each `sprintf` of the source, including the
extra `"./"` prefix of the segment cases. -/
def out_opener_segname (gfd : Int) (ty : OutType) (stream_index seg_index : Int)
    (url : String) : String :=
  let dir := "./O/O" ++ sprintfd gfd
  match ty with
  | .manifest => dir ++ "/" ++ "dash.mpd"
  | .master_m3u => dir ++ "/" ++ "master.m3u8"
  | .video_init_stream | .audio_init_stream | .video_m3u | .audio_m3u
  | .aes_128_key | .mp4_stream | .fmp4_stream => dir ++ "/" ++ url
  | .video_segment | .audio_segment =>
    "./" ++ dir ++ "/" ++ "chunk-stream" ++ sprintfd stream_index ++ "-" ++
      sprintf0d 5 seg_index ++ ".m4s"
  | .mp4_segment =>
    "./" ++ dir ++ "/" ++ "segment" ++ sprintfd stream_index ++ "-" ++
      sprintf0d 5 seg_index ++ ".mp4"
  | .fmp4_segment =>
    "./" ++ dir ++ "/" ++ "fsegment" ++ sprintfd stream_index ++ "-" ++
      sprintf0d 5 seg_index ++ ".mp4"

/-- The naming convention as the specification states it: manifest →
`dash.mpd`; master playlist → `master.m3u8`; init/key/m3u (and
single-file stream outputs) → the literal requested name; binary media
segments → `<kind-prefix><streamIndex>-<segIndex:05d>.<ext>` with
kind-prefix `chunk-stream`/ext `m4s` for DASH segments, `segment`/`mp4`
for mp4 segments and `fsegment`/`mp4` for fmp4 segments. -/
def specFileName (ty : OutType) (stream_index seg_index : Int)
    (url : String) : String :=
  match ty with
  | .manifest => "dash.mpd"
  | .master_m3u => "master.m3u8"
  | .video_init_stream | .audio_init_stream | .video_m3u | .audio_m3u
  | .aes_128_key | .mp4_stream | .fmp4_stream => url
  | .video_segment | .audio_segment =>
    "chunk-stream" ++ sprintfd stream_index ++ "-" ++ sprintf0d 5 seg_index ++ ".m4s"
  | .mp4_segment =>
    "segment" ++ sprintfd stream_index ++ "-" ++ sprintf0d 5 seg_index ++ ".mp4"
  | .fmp4_segment =>
    "fsegment" ++ sprintfd stream_index ++ "-" ++ sprintf0d 5 seg_index ++ ".mp4"

/-- The directory part of the paths `out_opener` builds
(`sprintf(dir, "./O/O%d", gfd)`). -/
def outDir (gfd : Int) : String := "./O/O" ++ sprintfd gfd

/-- The part of an `out_opener` path before the final `/`: the segment
cases prepend a further `"./"` to the directory. -/
def outPathPrefix (gfd : Int) (ty : OutType) : String :=
  match ty with
  | .video_segment | .audio_segment | .mp4_segment | .fmp4_segment =>
    "./" ++ outDir gfd
  | _ => outDir gfd

end Avpipe

namespace Avpipe

/-! ## Theorems -/

set_option maxRecDepth 4000

/-- Claim C1. For every output write through the I/O callback dispatcher,
the claim demands that the value returned to the engine equal `len(buf)`
exactly when the backend accepted all bytes and be an error status
otherwise.  Evaluating the embedded code at the failing input: for a
10-byte write on a live handle and slot whose backend `Write` reports an
error, the Go dispatcher `AVPipeWriteOutput` returns -1, yet
`out_write_packet` returns 10 (= `len(buf)`, full success) to the
engine; likewise a partial write of 5 of 10 bytes is returned to the
engine as 10.  The backend's error is silently dropped. -/
theorem C1_write_error_returned_as_success :
    avPipeWriteOutput true true 0 true = some (-1) ∧
    engineWriteReturn ⟨0, 0⟩ 0 true 10 = some 10 ∧
    avPipeWriteOutput true true 5 false = some 5 ∧
    engineWriteReturn ⟨0, 0⟩ 5 false 10 = some 10 := by
  decide

/-- Claim C2, counterexample. At end-of-stream the backend reader
returns `(0, nil)`; the Go dispatcher `AVPipeReadInput` returns 0, but
`in_read_packet` returns -1 to the engine — end-of-stream *is*
converted into an error return, contradicting the claim that the count
returned to the engine is 0 exactly at end-of-stream. -/
theorem C2_eof_converted_to_error :
    avPipeReadInput true 0 false = 0 ∧
    engineReadReturn ⟨0, 0⟩ 0 false = -1 ∧
    (-1 : Int) ≠ 0 := by
  decide

/-- Claim C2, amended. At the Go dispatcher boundary the claim holds:
`AVPipeReadInput` returns the backend count (0 exactly at
end-of-stream) when the handle is live and the backend reported no
error, and -1 when the handle is absent or the backend reported an
error.  The C wrapper `in_read_packet` then forwards a positive count
unchanged and converts every non-positive count — including the
end-of-stream 0 — into -1 before returning to the engine. -/
theorem C2_dispatcher_read_status (c : InCtxCounters) (n : Int)
    (readErr : Bool) :
    (avPipeReadInput true n readErr = if readErr then -1 else n) ∧
    (avPipeReadInput false n readErr = -1) ∧
    (engineReadReturn c n readErr =
      if 0 < n ∧ readErr = false then n else -1) := by
  cases readErr <;>
    simp [avPipeReadInput, engineReadReturn, in_read_packet_c]

/-- Claim C5. When all 128 slots of the session table are live, the next
`tx_init` does fail with -1 and allocates no handle — but the
table-full cleanup branch is dead code: `tx_table_put` returns the
`int32_t` -1, `tx_init` stores it in the `uint32_t` local `handle`
(value 4294967295), the C comparison `handle < 0` compares unsigned
values and is false, so the `end_tx_init` branch that closes the input
handler and releases the partially allocated resources never runs, and
the function returns the wrapped-around -1 with `cleanedUp = false`,
contradicting the claim that the failing init releases all partially
allocated resources. -/
theorem C5_table_full_init_skips_cleanup :
    hasFree fullTable = false ∧
    (tx_table_put 99 fullTable).1 = -1 ∧
    u32ofI32 (-1) = 4294967295 ∧
    tx_init_put_phase 99 fullTable =
      { ret := -1, table := fullTable, cleanedUp := false } := by
  decide

/-- Claim C6, counterexample. After a 1316-byte datagram has been
delivered, a timeout makes `readUdp` return `EAV_IO_TIMEOUT`, which the
connection owner delivers to the session's error channel — a non-nil
error, not the clean completion the claim states.  And the C test
reader `udp_thread_func` exits its loop on a timeout before any data
has arrived, rather than keep waiting. -/
theorem C6_timeout_reported_on_error_channel :
    readUdpGo 0 [.data 1316, .timeout] =
      .returned (some .eavIoTimeout) 1316 ∧
    errChannelMsg (readUdpGo 0 [.data 1316, .timeout]) =
      some .eavIoTimeout ∧
    (some UdpErr.eavIoTimeout ≠ (none : Option UdpErr)) ∧
    udpThreadGo [] [.timeout] = .exitedT [] := by
  decide

/-- Claim C6, amended. For the Go live-capture reader `readUdp`: any
number of timeouts before the first byte leaves the loop running —
nothing is completed, closed or reported; a timeout after at least one
byte stops the loop and closes the downstream writer, so the consumer
observes end-of-stream, but the reader returns the distinguished
timeout status `EAV_IO_TIMEOUT`, which is delivered to the session's
error channel, rather than a clean (nil) completion.  (The C test
reader `udp_thread_func` instead exits on any timeout.) -/
theorem C6_timeout_behaviour (pre : Nat) (evs : List UdpEvent) (k : Nat)
    (hpre : 0 < pre) :
    readUdpGo 0 (List.replicate k .timeout) = .running 0 ∧
    streamClosed (readUdpGo 0 (List.replicate k .timeout)) = false ∧
    errChannelMsg (readUdpGo 0 (List.replicate k .timeout)) = none ∧
    readUdpGo pre (.timeout :: evs) = .returned (some .eavIoTimeout) pre ∧
    streamClosed (readUdpGo pre (.timeout :: evs)) = true ∧
    errChannelMsg (readUdpGo pre (.timeout :: evs)) =
      some .eavIoTimeout := by
  have hwait : readUdpGo 0 (List.replicate k .timeout) = .running 0 := by
    induction k with
    | zero => rfl
    | succ m ih => simpa [List.replicate_succ, readUdpGo] using ih
  have hstop : readUdpGo pre (.timeout :: evs) =
      .returned (some .eavIoTimeout) pre := by
    simp [readUdpGo, Nat.pos_iff_ne_zero.mp hpre]
  refine ⟨hwait, ?_, ?_, hstop, ?_, ?_⟩ <;>
    simp [hwait, hstop, streamClosed, errChannelMsg]

/-- Claim C6, witness. The amended theorem at `pre = 1316`, no further
events, and three pre-data timeouts. -/
theorem C6_timeout_behaviour_witness :
    readUdpGo 0 (List.replicate 3 .timeout) = .running 0 ∧
    readUdpGo 1316 [.timeout] = .returned (some .eavIoTimeout) 1316 := by
  have h := C6_timeout_behaviour 1316 [] 3 (by decide)
  exact ⟨h.1, h.2.2.2.1⟩

/-! ### The session table: registration and lookup -/

/-- The live handles of a table headed by a live entry. -/
@[simp]
theorem liveHandles_cons_some (e : TxEntry) (t : TxTable) :
    liveHandles (some e :: t) = e.handle :: liveHandles t := by
  simp [liveHandles]

/-- The live handles of a table headed by a NULL slot. -/
@[simp]
theorem liveHandles_cons_none (t : TxTable) :
    liveHandles (none :: t) = liveHandles t := by
  simp [liveHandles]

/-- Lemma: `tx_table_put_go` with a free slot available: the handle installed
and returned is `|r|` with no collision check — the count of live
entries carrying `|r|` grows by one whatever it was before. -/
theorem tx_table_put_go_spec (r : Int) :
    ∀ (i : Nat) (t : TxTable), t.any (·.isNone) = true →
      (tx_table_put_go r i t).1 = absHandle r ∧
      countHandle (absHandle r) (tx_table_put_go r i t).2 =
        countHandle (absHandle r) t + 1 := by
  intro i t
  induction t generalizing i with
  | nil => intro hfree; simp at hfree
  | cons o rest ih =>
    intro hfree
    cases o with
    | none =>
      simp [tx_table_put_go, countHandle, List.count_cons]
    | some e =>
      have hrest : rest.any (·.isNone) = true := by simpa using hfree
      have h := ih (i + 1) hrest
      simp only [countHandle] at h
      simp only [tx_table_put_go, countHandle, liveHandles_cons_some,
        List.count_cons]
      refine ⟨h.1, ?_⟩
      rw [h.2]
      omega

/-- Claim C4, counterexample. Two register operations whose `rand()`
draws are both 5 on the initially empty 128-slot table: the second
register does not retry — it returns 5 again and installs a second
live entry with handle 5, so a handle maps to two session entries,
contradicting the claimed collision check. -/
theorem C4_duplicate_handle_installed :
    (tx_table_put 5 (tx_table_put 5 tx_table_init).2).1 = 5 ∧
    countHandle 5 (tx_table_put 5 (tx_table_put 5 tx_table_init).2).2 = 2 := by
  decide

/-- Claim C4, amended. `tx_table_put` performs no collision check:
whenever the table has a free slot, registration installs and returns
the absolute value of the single random draw — even when that value
already names a live entry, in which case the table ends up with one
more entry carrying the same handle. -/
theorem C4_register_has_no_collision_check (r : Int) (t : TxTable)
    (hfree : hasFree t = true) :
    (tx_table_put r t).1 = absHandle r ∧
    countHandle (absHandle r) (tx_table_put r t).2 =
      countHandle (absHandle r) t + 1 :=
  tx_table_put_go_spec r 0 t hfree

/-- Claim C4, witness. The amended theorem applied to a table that
already holds a live entry with handle 42 and the colliding draw 42:
the second registration returns 42 and the table now counts two
entries with handle 42. -/
theorem C4_register_has_no_collision_check_witness :
    (tx_table_put 42 (tx_table_put 42 tx_table_init).2).1 = 42 ∧
    countHandle 42 (tx_table_put 42 (tx_table_put 42 tx_table_init).2).2 = 2 := by
  have h := C4_register_has_no_collision_check 42
    (tx_table_put 42 tx_table_init).2 (by decide)
  refine ⟨by simpa [absHandle] using h.1, ?_⟩
  have h2 := h.2
  simp only [absHandle] at h2
  norm_num at h2
  rw [h2]
  decide

/-- Unregistering the first matching entry: when the table is
well-indexed the `txctx->index` check of `tx_table_free` passes at the
first match, so the live handles of the freed table are exactly the
original ones with the first occurrence of `h` erased. -/
theorem liveHandles_free_go (h : Int) :
    ∀ (i : Nat) (t : TxTable), wfFromB i t = true →
      liveHandles (tx_table_free_go h i t) = (liveHandles t).erase h := by
  intro i t
  induction t generalizing i with
  | nil => intro _; rfl
  | cons o rest ih =>
    intro hwf
    cases o with
    | none =>
      simpa [tx_table_free_go] using ih (i + 1) (by simpa [wfFromB] using hwf)
    | some e =>
      have hidx : e.index = i ∧ wfFromB (i + 1) rest = true := by
        simpa [wfFromB] using hwf
      by_cases heq : e.handle = h
      · simp [tx_table_free_go, heq, hidx.1, List.erase_cons_head]
      · have hrec := ih (i + 1) hidx.2
        rw [show tx_table_free_go h i (some e :: rest) =
            some e :: tx_table_free_go h (i + 1) rest by
          simp [tx_table_free_go, heq]]
        rw [liveHandles_cons_some, liveHandles_cons_some,
          List.erase_cons_tail (by simpa using heq), hrec]

/-- Lookup misses exactly the handles that are not live. -/
theorem tx_table_find_eq_none (h : Int) :
    ∀ t : TxTable, h ∉ liveHandles t → tx_table_find h t = none := by
  intro t
  induction t with
  | nil => intro _; rfl
  | cons o rest ih =>
    intro hmem
    cases o with
    | none => simpa [tx_table_find] using ih (by simpa using hmem)
    | some e =>
      have hsplit : e.handle ≠ h ∧ h ∉ liveHandles rest := by
        rw [liveHandles_cons_some] at hmem
        simp only [List.mem_cons, not_or] at hmem
        exact ⟨fun hc => hmem.1 hc.symm, hmem.2⟩
      simp [tx_table_find, hsplit.1, ih hsplit.2]

/-- Lemma: `tx_table_put_go` preserves well-indexing (the recorded index is
the insertion slot). -/
theorem wfFromB_put_go (r : Int) :
    ∀ (i : Nat) (t : TxTable), wfFromB i t = true →
      wfFromB i (tx_table_put_go r i t).2 = true := by
  intro i t
  induction t generalizing i with
  | nil => intro _; rfl
  | cons o rest ih =>
    intro hwf
    cases o with
    | none => simpa [tx_table_put_go, wfFromB] using hwf
    | some e =>
      have h' : e.index = i ∧ wfFromB (i + 1) rest = true := by
        simpa [wfFromB] using hwf
      simp [tx_table_put_go, wfFromB, h'.1, ih (i + 1) h'.2]

/-- Lemma: `tx_table_free_go` preserves well-indexing. -/
theorem wfFromB_free_go (h : Int) :
    ∀ (i : Nat) (t : TxTable), wfFromB i t = true →
      wfFromB i (tx_table_free_go h i t) = true := by
  intro i t
  induction t generalizing i with
  | nil => intro _; rfl
  | cons o rest ih =>
    intro hwf
    cases o with
    | none => simpa [tx_table_free_go, wfFromB] using ih (i + 1) (by simpa [wfFromB] using hwf)
    | some e =>
      have h' : e.index = i ∧ wfFromB (i + 1) rest = true := by
        simpa [wfFromB] using hwf
      by_cases heq : e.handle = h
      · simp [tx_table_free_go, heq, h'.1, wfFromB, h'.2]
      · simp [tx_table_free_go, heq, wfFromB, h'.1, ih (i + 1) h'.2]

/-- Well-indexing is an invariant of every register/unregister trace
from the initial table. -/
theorem wfTableB_runRegOps (ops : List RegOp) :
    ∀ t : TxTable, wfTableB t = true → wfTableB (runRegOps t ops) = true := by
  induction ops with
  | nil => intro t h; exact h
  | cons op rest ih =>
    intro t h
    cases op with
    | register r => exact ih _ (wfFromB_put_go r 0 t h)
    | unregister hd => exact ih _ (wfFromB_free_go hd 0 t h)

/-- Claim C3, counterexample. The claim quantifies over *all*
register/unregister sequences, but handle generation has no collision
check: after two registers whose draws are both 5 and one unregister of
handle 5 (which removes the first matching entry), looking up handle 5
still returns the second live entry — not absent. -/
theorem C3_lookup_after_unregister_found :
    tx_table_find 5
        (runRegOps tx_table_init [.register 5, .register 5, .unregister 5]) =
      some { handle := 5, index := 1 } ∧
    tx_table_find 5
        (runRegOps tx_table_init [.register 5, .register 5, .unregister 5]) ≠
      none := by
  decide

/-- Claim C3, amended. Provided no two live entries share a handle
(which the registry itself does not enforce — see the collision
counterexample), looking a handle up right after its unregister returns
absent; the table's well-indexing needed for the unregister's
`txctx->index` check is a true invariant (proved separately over all
traces).  And every dispatcher operation invoked with an absent session
handle — close-input, read-input, write-output, open-output — returns
the fatal status -1 rather than retrying. -/
theorem C3_lookup_after_unregister_absent (t : TxTable) (h fd n gFd : Int)
    (s : GoState) (closeErr readErr : Bool)
    (hwf : wfTableB t = true) (hnd : (liveHandles t).Nodup)
    (habs : s.live.contains fd = false) :
    tx_table_find h (tx_table_free h t) = none ∧
    (avPipeCloseInput fd closeErr s).1 = -1 ∧
    avPipeReadInput false n readErr = -1 ∧
    avPipeWriteOutput false true n readErr = some (-1) ∧
    (avPipeOpenOutput4 false true true gFd).1 = -1 := by
  refine ⟨?_, ?_, ?_, ?_, ?_⟩
  · apply tx_table_find_eq_none
    rw [show tx_table_free h t = tx_table_free_go h 0 t from rfl,
      liveHandles_free_go h 0 t hwf]
    intro hmem
    exact ((List.Nodup.mem_erase_iff hnd).mp hmem).1 rfl
  · have habs' : fd ∉ s.live := by simpa using habs
    simp [avPipeCloseInput, habs']
  · rfl
  · rfl
  · rfl

/-- Claim C3, witness. The amended theorem on the concrete well-indexed
table `[⟨5,0⟩, ⟨7,1⟩]` with distinct live handles: after unregistering
5, lookup of 5 is absent, and the dispatcher calls on the absent
handle 9 of a Go registry with live handle 1 all return -1. -/
theorem C3_lookup_after_unregister_absent_witness :
    tx_table_find 5 (tx_table_free 5
      [some { handle := 5, index := 0 }, some { handle := 7, index := 1 }]) = none ∧
    (avPipeCloseInput 9 false { gHandleNum := 3, live := [1] }).1 = -1 := by
  have h := C3_lookup_after_unregister_absent
    [some { handle := 5, index := 0 }, some { handle := 7, index := 1 }]
    5 9 0 0 { gHandleNum := 3, live := [1] } false false
    (by decide) (by decide) (by decide)
  exact ⟨h.1, h.2.1⟩

/-! ### The backpressured stream adapter -/

/-- Every single `in_read_packet` call on the UDP branch delivers
exactly `min(buf_size, remaining-of-current-packet)` bytes and leaves
the undelivered bytes pending: output plus new pending bytes equal the
old pending bytes, so nothing is lost or duplicated. -/
theorem adapter_read_step (c : AdapterState) (sz : Nat) :
    (in_read_packet_udp c sz).out ++ pendingBytes (in_read_packet_udp c sz).st =
      pendingBytes c ∧
    (in_read_packet_udp c sz).out.length = min sz (headRemaining c) := by
  obtain ⟨cur, queue⟩ := c
  cases cur with
  | some pp =>
    obtain ⟨pkt, pread⟩ := pp
    by_cases hend : pread + min sz (pkt.length - pread) = pkt.length
    · have hread : in_read_packet_udp ⟨some (pkt, pread), queue⟩ sz =
          { ret := Int.ofNat (min sz (pkt.length - pread)),
            out := (pkt.drop pread).take (min sz (pkt.length - pread)),
            st := { cur := none, queue := queue } } := by
        simp [in_read_packet_udp, hend]
      have hlen : (pkt.drop pread).length ≤ min sz (pkt.length - pread) := by
        simp only [List.length_drop]; omega
      rw [hread]
      constructor
      · simp only [pendingBytes, List.take_of_length_le hlen]
        simp
      · simp only [headRemaining, List.length_take, List.length_drop]
        omega
    · have hread : in_read_packet_udp ⟨some (pkt, pread), queue⟩ sz =
          { ret := Int.ofNat (min sz (pkt.length - pread)),
            out := (pkt.drop pread).take (min sz (pkt.length - pread)),
            st := { cur := some (pkt, pread + min sz (pkt.length - pread)),
                    queue := queue } } := by
        simp [in_read_packet_udp, hend]
      rw [hread]
      constructor
      · simp only [pendingBytes]
        rw [← List.append_assoc]
        congr 1
        rw [show pkt.drop (pread + min sz (pkt.length - pread)) =
            (pkt.drop pread).drop (min sz (pkt.length - pread)) by
          rw [List.drop_drop, Nat.add_comm pread (min sz (pkt.length - pread))]]
        exact List.take_append_drop _ _
      · simp only [headRemaining, List.length_take, List.length_drop]
        omega
  | none =>
    cases queue with
    | nil =>
      constructor <;> simp [in_read_packet_udp, pendingBytes, headRemaining]
    | cons pkt rest =>
      by_cases hlt : min sz pkt.length < pkt.length
      · have hread : in_read_packet_udp ⟨none, pkt :: rest⟩ sz =
            { ret := Int.ofNat (min sz pkt.length),
              out := pkt.take (min sz pkt.length),
              st := { cur := some (pkt, min sz pkt.length),
                      queue := rest } } := by
          simp [in_read_packet_udp, hlt]
        rw [hread]
        constructor
        · simp only [pendingBytes]
          rw [← List.append_assoc, List.take_append_drop]
          simp
        · simp only [headRemaining, List.length_take]
          omega
      · have hread : in_read_packet_udp ⟨none, pkt :: rest⟩ sz =
            { ret := Int.ofNat (min sz pkt.length),
              out := pkt.take (min sz pkt.length),
              st := { cur := none, queue := rest } } := by
          simp [in_read_packet_udp, hlt]
        have hlen : pkt.length ≤ min sz pkt.length := by omega
        rw [hread]
        constructor
        · simp only [pendingBytes, List.take_of_length_le hlen]
          simp
        · simp only [headRemaining, List.length_take]
          omega

/-- Over any sequence of reads, the delivered bytes followed by the
still-pending bytes are the original pending bytes. -/
theorem adapter_drain (sizes : List Nat) :
    ∀ c : AdapterState,
      drainOut c sizes ++ pendingBytes (drainSt c sizes) = pendingBytes c := by
  induction sizes with
  | nil => intro c; simp [drainOut, drainSt]
  | cons sz rest ih =>
    intro c
    simp only [drainOut, drainSt]
    rw [List.append_assoc, ih]
    exact (adapter_read_step c sz).1

/-- Claim C7. The backpressured stream adapter reproduces the datagram
stream exactly: for every queue of datagrams and every sequence of
read-buffer sizes, the concatenation of the delivered chunks followed
by the bytes still pending equals the FIFO concatenation of the
datagram payloads; once the adapter is drained the delivered bytes are
exactly that concatenation; and each single read delivers exactly
`min(remaining, len(buf))` bytes of the current packet while preserving
the pending byte sequence — no byte is lost or duplicated, for read
buffers smaller than a datagram included. -/
theorem C7_adapter_reproduces_stream (pkts : List (List Nat))
    (sizes : List Nat) (c : AdapterState) (sz : Nat)
    (hdrained : pendingBytes (drainSt ⟨none, pkts⟩ sizes) = []) :
    drainOut ⟨none, pkts⟩ sizes = pkts.flatten ∧
    drainOut ⟨none, pkts⟩ sizes ++ pendingBytes (drainSt ⟨none, pkts⟩ sizes) =
      pkts.flatten ∧
    (in_read_packet_udp c sz).out ++ pendingBytes (in_read_packet_udp c sz).st =
      pendingBytes c ∧
    (in_read_packet_udp c sz).out.length = min sz (headRemaining c) := by
  have hfull := adapter_drain sizes ⟨none, pkts⟩
  have hpend : pendingBytes ⟨none, pkts⟩ = pkts.flatten := by
    simp [pendingBytes]
  refine ⟨?_, ?_, (adapter_read_step c sz).1, (adapter_read_step c sz).2⟩
  · rw [hdrained] at hfull; simpa [hpend] using hfull
  · rw [hfull, hpend]

/-- Claim C7, witness. The theorem at datagrams `[1,2,3]`, `[4,5]` read
with buffers of size 2 (smaller than the first datagram): the reads
deliver `[1,2]`, `[3]`, `[4,5]` — exactly the concatenation. -/
theorem C7_adapter_reproduces_stream_witness :
    drainOut ⟨none, [[1, 2, 3], [4, 5]]⟩ [2, 2, 2] = [1, 2, 3, 4, 5] :=
  (C7_adapter_reproduces_stream [[1, 2, 3], [4, 5]] [2, 2, 2]
    ⟨none, []⟩ 0 (by decide)).1

/-! ### Output slot ids -/

/-- Monotone weakening of a lower bound on all elements. -/
theorem all_lt_of_le (l : List Int) (a b : Int) (hab : a ≤ b)
    (h : l.all (fun y => decide (b < y)) = true) :
    l.all (fun y => decide (a < y)) = true := by
  rw [List.all_eq_true] at h ⊢
  intro x hx
  have := h x hx
  simp only [decide_eq_true_eq] at this ⊢
  omega

/-- A strictly increasing list stays strictly increasing after
prepending a strict lower bound. -/
theorem strictIncrB_cons (x : Int) (l : List Int)
    (h1 : l.all (fun y => decide (x < y)) = true)
    (h2 : strictIncrB l = true) : strictIncrB (x :: l) = true := by
  cases l with
  | nil => rfl
  | cons b t =>
    have hb : x < b := by
      have := List.all_eq_true.mp h1 b (by simp)
      simpa using this
    simp [strictIncrB, hb, h2]

/-- The slot ids issued by successful `AVPipeOpenOutput` calls (newer
Go package) are all above the starting counter and strictly
increasing: the counter only ever grows, also on failed calls. -/
theorem openSuccessFds_spec :
    ∀ (calls : List OpenCall) (gFd : Int),
      (openSuccessFds gFd calls).all (fun y => decide (gFd < y)) = true ∧
      strictIncrB (openSuccessFds gFd calls) = true := by
  intro calls
  induction calls with
  | nil => intro gFd; constructor <;> rfl
  | cons c rest ih =>
    intro gFd
    obtain ⟨hp, vt, ok⟩ := c
    cases hp with
    | false =>
      have hlist : openSuccessFds gFd (OpenCall.mk false vt ok :: rest) =
          openSuccessFds gFd rest := by
        simp [openSuccessFds, avPipeOpenOutput4]
      rw [hlist]
      exact ih gFd
    | true =>
      cases vt with
      | false =>
        have hlist : openSuccessFds gFd (OpenCall.mk true false ok :: rest) =
            openSuccessFds (gFd + 1) rest := by
          simp [openSuccessFds, avPipeOpenOutput4]
        rw [hlist]
        have h := ih (gFd + 1)
        exact ⟨all_lt_of_le _ gFd (gFd + 1) (by omega) h.1, h.2⟩
      | true =>
        cases ok with
        | false =>
          have hlist : openSuccessFds gFd (OpenCall.mk true true false :: rest) =
              openSuccessFds (gFd + 1) rest := by
            simp [openSuccessFds, avPipeOpenOutput4]
          rw [hlist]
          have h := ih (gFd + 1)
          exact ⟨all_lt_of_le _ gFd (gFd + 1) (by omega) h.1, h.2⟩
        | true =>
          have hlist : openSuccessFds gFd (OpenCall.mk true true true :: rest) =
              (gFd + 1) :: openSuccessFds (gFd + 1) rest := by
            simp [openSuccessFds, avPipeOpenOutput4]
          rw [hlist]
          have h := ih (gFd + 1)
          have hall : (openSuccessFds (gFd + 1) rest).all
              (fun y => decide (gFd < y)) = true :=
            all_lt_of_le _ gFd (gFd + 1) (by omega) h.1
          constructor
          · rw [List.all_cons, Bool.and_eq_true]
            exact ⟨decide_eq_true (by omega), hall⟩
          · exact strictIncrB_cons _ _ h.1 h.2

/-- Claim C8, counterexample. The deterministic slot-id formula of the
older `avpipe_handler.go` collides on distinct (stream, segment)
pairs: `(stream=0, seg=2)` and `(stream=2, seg=1)` both yield slot id
2, contradicting "distinct (stream index, segment index) pairs never
yields a colliding slot id". -/
theorem C8_formula_collision :
    openOutputFdFormula 0 2 = 2 ∧ openOutputFdFormula 2 1 = 2 ∧
    ((0 : Int), (2 : Int)) ≠ ((2 : Int), (1 : Int)) := by
  decide

/-- Claim C8, amended. In the newer Go dispatcher the slot ids issued by
successful `AVPipeOpenOutput` calls come from the global monotone
counter `gFd` and are strictly increasing, hence pairwise distinct for
the binding's lifetime — so distinct (stream, segment) pairs, and also
segment versus non-segment kinds, never share a slot id there.  The
formula-based allocator of the older `avpipe_handler.go` is collision
free only on its intended domain: for stream indices below the stride
2, equal slot ids force equal (stream, segment) pairs. -/
theorem C8_slot_ids_distinct (gFd s1 g1 s2 g2 : Int) (calls : List OpenCall)
    (hs1a : 0 ≤ s1) (hs1b : s1 < 2) (hs2a : 0 ≤ s2) (hs2b : s2 < 2)
    (heq : openOutputFdFormula s1 g1 = openOutputFdFormula s2 g2) :
    strictIncrB (openSuccessFds gFd calls) = true ∧ s1 = s2 ∧ g1 = g2 := by
  refine ⟨(openSuccessFds_spec calls gFd).2, ?_⟩
  unfold openOutputFdFormula at heq
  omega

/-- Claim C8, witness. The amended theorem on a trace of three opens of
which the middle one fails (invalid stream type): the issued slot ids
are 1 and 3, strictly increasing, and the formula instance at
stream 1, segment 3 is self-consistent. -/
theorem C8_slot_ids_distinct_witness :
    strictIncrB (openSuccessFds 0
      [⟨true, true, true⟩, ⟨true, false, true⟩, ⟨true, true, true⟩]) = true ∧
    openSuccessFds 0
      [⟨true, true, true⟩, ⟨true, false, true⟩, ⟨true, true, true⟩] = [1, 3] := by
  refine ⟨(C8_slot_ids_distinct 0 1 3 1 3 _
    (by decide) (by decide) (by decide) (by decide) rfl).1, by decide⟩

/-! ### The output naming convention -/

/-- Claim C9. The path `out_opener` presents to the storage backend is
the per-input directory followed by exactly the specified file name:
`dash.mpd` for the manifest, `master.m3u8` for the master playlist, the
literal requested name for init/key/m3u (and single-file stream)
outputs, and `<kind-prefix><streamIndex>-<segIndex:05d>.<ext>` for
binary media segments with `chunk-stream`/`m4s` for DASH segments,
`segment`/`mp4` for mp4 segments and `fsegment`/`mp4` for fmp4
segments. -/
theorem C9_output_naming (gfd stream_index seg_index : Int) (ty : OutType)
    (url : String) :
    out_opener_segname gfd ty stream_index seg_index url =
      outPathPrefix gfd ty ++ "/" ++ specFileName ty stream_index seg_index url := by
  cases ty <;>
    simp only [out_opener_segname, outPathPrefix, outDir, specFileName,
      String.append_assoc]

/-! ### The Go session-handle counter -/

/-- Closing an input never changes the handle counter. -/
theorem closeInput_counter (fd : Int) (e : Bool) (s : GoState) :
    (avPipeCloseInput fd e s).2.gHandleNum = s.gHandleNum := by
  unfold avPipeCloseInput
  split <;> rfl

/-- The handles of successful `NewIOHandler` calls are all above the
starting counter and strictly increasing: every call (successful or
not, close operations aside) only grows the counter. -/
theorem goSuccessHandles_spec :
    ∀ (ops : List GoOp) (s : GoState),
      (goSuccessHandles s ops).all
        (fun y => decide (s.gHandleNum < y)) = true ∧
      strictIncrB (goSuccessHandles s ops) = true := by
  intro ops
  induction ops with
  | nil => intro s; constructor <;> rfl
  | cons op rest ih =>
    intro s
    cases op with
    | newIn a b =>
      cases a with
      | false =>
        have hlist : goSuccessHandles s (GoOp.newIn false b :: rest) =
            goSuccessHandles s rest := by
          simp [goSuccessHandles, newIOHandler]
        rw [hlist]
        exact ih s
      | true =>
        cases b with
        | false =>
          have hlist : goSuccessHandles s (GoOp.newIn true false :: rest) =
              goSuccessHandles
                { gHandleNum := s.gHandleNum + 1, live := s.live } rest := by
            simp [goSuccessHandles, newIOHandler]
          rw [hlist]
          have h := ih { gHandleNum := s.gHandleNum + 1, live := s.live }
          exact ⟨all_lt_of_le _ s.gHandleNum (s.gHandleNum + 1)
            (by omega) h.1, h.2⟩
        | true =>
          have hlist : goSuccessHandles s (GoOp.newIn true true :: rest) =
              (s.gHandleNum + 1) :: goSuccessHandles
                { gHandleNum := s.gHandleNum + 1,
                  live := (s.gHandleNum + 1) :: s.live } rest := by
            simp [goSuccessHandles, newIOHandler]
          rw [hlist]
          have h := ih
            { gHandleNum := s.gHandleNum + 1,
              live := (s.gHandleNum + 1) :: s.live }
          have hall := all_lt_of_le _ s.gHandleNum (s.gHandleNum + 1)
            (by omega) h.1
          constructor
          · rw [List.all_cons, Bool.and_eq_true]
            exact ⟨decide_eq_true (by omega), hall⟩
          · exact strictIncrB_cons _ _ h.1 h.2
    | closeIn fd e =>
      have h := ih (avPipeCloseInput fd e s).2
      rw [closeInput_counter fd e s] at h
      have hlist : goSuccessHandles s (GoOp.closeIn fd e :: rest) =
          goSuccessHandles (avPipeCloseInput fd e s).2 rest := by
        simp [goSuccessHandles]
      rw [hlist]
      exact h

/-- Claim C10. From the zero-initialised Go registry, every successful
`NewIOHandler` call returns a session handle strictly greater than
every handle returned before it — hence positive — over every trace of
new/close operations: closing an input only nils the table entry, the
counter `gHandleNum` is never decremented, and so a handle is never
reused even after its input is closed. -/
theorem C10_session_handles_strictly_increase (ops : List GoOp) :
    strictIncrB (goSuccessHandles goInit ops) = true ∧
    (goSuccessHandles goInit ops).all (fun h => decide (0 < h)) = true := by
  have h := goSuccessHandles_spec ops goInit
  exact ⟨h.2, h.1⟩

end Avpipe
